import Mathlib

/-!
Shallow embedding of the wifi PHY state helper
(`src/wifi/model/wifi-phy-state-helper.h`): the per-band radio occupancy
tracker.  The repository ships only the class header, which fixes the data
model (the private fields at the bottom of the class) and every method
signature; the method bodies live in a `.cc` file that is not part of the
repository, so each operation below is modelled from the specification's
description of that operation, over the exact fields the header declares.

Simulated time (ns-3 `Time`, a signed tick count) is embedded as `Int`;
durations passed to the transition operations are embedded as `Nat`
(callers pass non-negative durations).  The `double` CCA thresholds are
embedded as `ℚ`; the band-occupancy maps are keyed by the threshold
quantized to an integer, as the header's field comment records
(`std::map<std::pair<WifiSpectrumBand, int /* threshold */>, Time>`).
-/

/-- A frequency band identifier (`WifiSpectrumBand` is a pair of spectrum
indices in ns-3). -/
abbrev WifiSpectrumBand := Nat × Nat

/-- The derived radio state (`WifiPhyState` enum from `wifi-phy-state.h`,
which the header includes; the enum itself is not in the repository).
Modelled from the spec: `Idle | CcaBusy | Tx | Rx | Switching | Sleep | Off`. -/
inductive WifiPhyState where
  | IDLE
  | CCA_BUSY
  | TX
  | RX
  | SWITCHING
  | SLEEP
  | OFF
deriving DecidableEq, Repr

/-- Modelled from the spec: the threshold is "represented as a rounded
integer key for map lookup" (the header's FIXME note says thresholds are
rounded to `int` for the occupancy maps, but the rounding function itself
is in the missing `.cc`).  This computes `⌊thr + 1/2⌋`, i.e. `round thr`
(see `quantizeThreshold_eq_round`), written over the numerator and
denominator directly so that it evaluates on concrete rationals. -/
def quantizeThreshold (thr : ℚ) : Int :=
  (2 * thr.num + thr.den) / (2 * thr.den)

/-- Key of the band occupancy table: `(band, quantized threshold)`, the key
type of `m_startCcaBusy` / `m_endCcaBusy` in the header. -/
abbrev CcaKey := WifiSpectrumBand × Int

/-- The tracker state: exactly the private data fields of
`WifiPhyStateHelper` (header lines 416-428).  The two occupancy maps are
embedded as partial functions from keys to times.  Listeners, trace sinks
and the two delivery callbacks are external observers; their invocations
are modelled as emitted events (see `PhyEvent`), not as state. -/
structure WifiPhyStateHelper where
  m_sleeping : Bool
  m_isOff : Bool
  m_endTx : Int
  m_endRx : Int
  m_endSwitching : Int
  m_startTx : Int
  m_startRx : Int
  m_startSwitching : Int
  m_startSleep : Int
  m_previousStateChangeTime : Int
  m_startCcaBusy : CcaKey → Option Int
  m_endCcaBusy : CcaKey → Option Int

/-- The freshly constructed tracker: flags cleared, every timestamp zero,
occupancy maps empty. -/
def initState : WifiPhyStateHelper where
  m_sleeping := false
  m_isOff := false
  m_endTx := 0
  m_endRx := 0
  m_endSwitching := 0
  m_startTx := 0
  m_startRx := 0
  m_startSwitching := 0
  m_startSleep := 0
  m_previousStateChangeTime := 0
  m_startCcaBusy := fun _ => none
  m_endCcaBusy := fun _ => none

/-- Whether the band occupancy table marks `key` busy at `now`: the key is
present in `m_endCcaBusy` and `now` is strictly before the recorded busy
end. -/
def ccaBusyAt (s : WifiPhyStateHelper) (key : CcaKey) (now : Int) : Bool :=
  match s.m_endCcaBusy key with
  | some e => decide (now < e)
  | none => false

/-- Modelled from the spec: `GetState(band, threshold, now)` (header line
110; body in the missing `.cc`) derives the state in strict precedence
order, first match wins: Off, Sleep, Switching, Tx, Rx, CcaBusy (key
present and `now < busyEnd`), otherwise Idle. -/
def GetState (s : WifiPhyStateHelper) (band : WifiSpectrumBand) (thr : ℚ)
    (now : Int) : WifiPhyState :=
  if s.m_isOff then .OFF
  else if s.m_sleeping then .SLEEP
  else if now < s.m_endSwitching then .SWITCHING
  else if now < s.m_endTx then .TX
  else if now < s.m_endRx then .RX
  else if ccaBusyAt s (band, quantizeThreshold thr) now then .CCA_BUSY
  else .IDLE

/-- The derived state ignoring the band occupancy table.  Used for the
preconditions of the Rx-closing operations, which take no band argument:
whether the state is Rx (or Off, Sleep, Tx, Switching) does not depend on
the queried band. -/
def stateAnyBand (s : WifiPhyStateHelper) (now : Int) : WifiPhyState :=
  if s.m_isOff then .OFF
  else if s.m_sleeping then .SLEEP
  else if now < s.m_endSwitching then .SWITCHING
  else if now < s.m_endTx then .TX
  else if now < s.m_endRx then .RX
  else .IDLE

/-- Modelled from the spec: `IsStateCcaBusy(band, threshold)` is
`GetState(...) == CCA_BUSY`. -/
def IsStateCcaBusy (s : WifiPhyStateHelper) (band : WifiSpectrumBand) (thr : ℚ)
    (now : Int) : Bool :=
  GetState s band thr now == .CCA_BUSY

/-- Modelled from the spec: `IsStateIdle(band, threshold)` is
`GetState(...) == IDLE`. -/
def IsStateIdle (s : WifiPhyStateHelper) (band : WifiSpectrumBand) (thr : ℚ)
    (now : Int) : Bool :=
  GetState s band thr now == .IDLE

/-- Modelled from the spec: `IsStateRx(band, threshold)` is
`GetState(...) == RX`. -/
def IsStateRx (s : WifiPhyStateHelper) (band : WifiSpectrumBand) (thr : ℚ)
    (now : Int) : Bool :=
  GetState s band thr now == .RX

/-- Modelled from the spec: `IsStateTx(band, threshold)` is
`GetState(...) == TX`. -/
def IsStateTx (s : WifiPhyStateHelper) (band : WifiSpectrumBand) (thr : ℚ)
    (now : Int) : Bool :=
  GetState s band thr now == .TX

/-- Modelled from the spec: `IsStateSwitching(band, threshold)` is
`GetState(...) == SWITCHING`. -/
def IsStateSwitching (s : WifiPhyStateHelper) (band : WifiSpectrumBand) (thr : ℚ)
    (now : Int) : Bool :=
  GetState s band thr now == .SWITCHING

/-- Modelled from the spec: `IsStateSleep(band, threshold)` is
`GetState(...) == SLEEP`. -/
def IsStateSleep (s : WifiPhyStateHelper) (band : WifiSpectrumBand) (thr : ℚ)
    (now : Int) : Bool :=
  GetState s band thr now == .SLEEP

/-- Modelled from the spec: `IsStateOff(band, threshold)` is
`GetState(...) == OFF`. -/
def IsStateOff (s : WifiPhyStateHelper) (band : WifiSpectrumBand) (thr : ℚ)
    (now : Int) : Bool :=
  GetState s band thr now == .OFF

/-- Modelled from the spec: `GetDelaySinceIdle(band, threshold, now)` is
`now − (busyEnd for this key, or previousStateChangeTime if never busy)`. -/
def GetDelaySinceIdle (s : WifiPhyStateHelper) (band : WifiSpectrumBand)
    (thr : ℚ) (now : Int) : Int :=
  match s.m_endCcaBusy (band, quantizeThreshold thr) with
  | some e => now - e
  | none => now - s.m_previousStateChangeTime

/-- Modelled from the spec: `GetDelayUntilIdle(band, threshold, now)` is the
maximum of zero and the relevant end timestamp minus `now` for the active
state; zero if already idle.  Off and Sleep have no defined end (querying
then is a documented usage error); the model returns zero there to stay
total. -/
def GetDelayUntilIdle (s : WifiPhyStateHelper) (band : WifiSpectrumBand)
    (thr : ℚ) (now : Int) : Int :=
  match GetState s band thr now with
  | .SWITCHING => max 0 (s.m_endSwitching - now)
  | .TX => max 0 (s.m_endTx - now)
  | .RX => max 0 (s.m_endRx - now)
  | .CCA_BUSY =>
      match s.m_endCcaBusy (band, quantizeThreshold thr) with
      | some e => max 0 (e - now)
      | none => 0
  | _ => 0

/-- Modelled from the spec: `GetLastRxStartTime()` returns
`rxInterval.start` unconditionally. -/
def GetLastRxStartTime (s : WifiPhyStateHelper) : Int :=
  s.m_startRx

/-- Observable effects of a transition operation: listener notifications,
trace-sink firings, and the two delivery-callback invocations
(`m_rxOkCallback` / `m_rxErrorCallback`). -/
inductive PhyEvent where
  | notifyTxStart (d : Nat)
  | traceTx
  | notifyRxStart (d : Nat)
  | notifyRxEndOk
  | traceRxOk
  | rxOkDelivery
  | notifyRxEndError
  | traceRxError
  | rxErrorDelivery
  | notifyMaybeCcaBusyStart (d : Nat)
  | notifySwitchingStart (d : Nat)
  | notifySleep
  | notifyWakeup
  | notifyOff
  | notifyOn
deriving DecidableEq, Repr

/-- The transition operations of the tracker, with the arguments relevant
to the state model (frames, signal descriptors and tx vectors are opaque
payloads forwarded to observers; they do not influence the state and are
omitted).  Each operation reads `now` from the scheduler clock, so `now`
is paired with the operation in a `TimedOp`. -/
inductive PhyOp where
  | switchToTx (d : Nat) (primaryBand : WifiSpectrumBand) (primaryThr : ℚ)
  | switchToRx (d : Nat) (primaryBand : WifiSpectrumBand) (primaryThr : ℚ)
  | switchToChannelSwitching (d : Nat) (primaryBand : WifiSpectrumBand) (primaryThr : ℚ)
  | continueRxNextMpdu
  | switchFromRxEndOk
  | switchFromRxEndError
  | switchFromRxAbort (failure : Bool)
  | switchMaybeToCcaBusy (d : Nat) (band : WifiSpectrumBand) (isPrimaryChannel : Bool) (thr : ℚ)
  | switchToSleep (primaryBand : WifiSpectrumBand) (primaryThr : ℚ)
  | switchFromSleep (d : Nat) (band : WifiSpectrumBand) (isPrimaryChannel : Bool) (thr : ℚ)
  | switchToOff (primaryBand : WifiSpectrumBand) (primaryThr : ℚ)
  | switchFromOff (d : Nat) (band : WifiSpectrumBand) (isPrimaryChannel : Bool) (thr : ℚ)
deriving DecidableEq

/-- An operation together with the simulated time at which the scheduler
invokes it. -/
abbrev TimedOp := Int × PhyOp

/-- Whether a proposed busy end strictly extends the recorded one (a
missing entry is always extended). -/
def ccaBusyEndExtends (old : Option Int) (newEnd : Int) : Bool :=
  match old with
  | some e => decide (e < newEnd)
  | none => true

/-- Modelled from the spec: the band-occupancy upsert of
`SwitchMaybeToCcaBusy` — set the entry for `key` to `[now, now+d)` only if
that extends the existing busy end, never shrinking it; insert the key if
absent. -/
def ccaUpsert (s : WifiPhyStateHelper) (now : Int) (d : Nat)
    (key : CcaKey) : WifiPhyStateHelper :=
  if ccaBusyEndExtends (s.m_endCcaBusy key) (now + (d : Int)) then
    { s with
      m_startCcaBusy := fun k => if k = key then some now else s.m_startCcaBusy k
      m_endCcaBusy := fun k => if k = key then some (now + (d : Int)) else s.m_endCcaBusy k }
  else s

/-- Modelled from the spec: one transition operation.  Returns `none` when
the operation's precondition on the derived state is violated (the code
aborts the simulation with a diagnostic there — a fatal, unrecoverable
fault, so the model has no post-state for it), and otherwise the updated
tracker together with the emitted notifications, traces and
delivery-callback invocations, as listed in the spec's transition table. -/
def step (s : WifiPhyStateHelper) (now : Int) :
    PhyOp → Option (WifiPhyStateHelper × List PhyEvent)
  | .switchToTx d pb pt =>
      match GetState s pb pt now with
      | .OFF | .SLEEP | .RX | .SWITCHING => none
      | _ => some
          ({ s with
             m_startTx := now
             m_endTx := now + (d : Int)
             m_previousStateChangeTime := now },
           [.notifyTxStart d, .traceTx])
  | .switchToRx d pb pt =>
      match GetState s pb pt now with
      | .OFF | .SLEEP | .TX | .SWITCHING => none
      | _ => some
          ({ s with
             m_startRx := now
             m_endRx := now + (d : Int)
             m_previousStateChangeTime := now },
           [.notifyRxStart d])
  | .switchToChannelSwitching d pb pt =>
      match GetState s pb pt now with
      | .OFF | .SLEEP => none
      | _ => some
          ({ s with
             m_startSwitching := now
             m_endSwitching := now + (d : Int)
             m_previousStateChangeTime := now },
           [.notifySwitchingStart d])
  | .continueRxNextMpdu =>
      match stateAnyBand s now with
      | .RX => some (s, [])
      | _ => none
  | .switchFromRxEndOk =>
      match stateAnyBand s now with
      | .RX => some
          ({ s with m_endRx := now, m_previousStateChangeTime := now },
           [.notifyRxEndOk, .traceRxOk, .rxOkDelivery])
      | _ => none
  | .switchFromRxEndError =>
      match stateAnyBand s now with
      | .RX => some
          ({ s with m_endRx := now, m_previousStateChangeTime := now },
           [.notifyRxEndError, .traceRxError, .rxErrorDelivery])
      | _ => none
  | .switchFromRxAbort failure =>
      match stateAnyBand s now with
      | .RX => some
          ({ s with m_endRx := now, m_previousStateChangeTime := now },
           if failure then [.notifyRxEndError] else [])
      | _ => none
  | .switchMaybeToCcaBusy d band isPrimary thr =>
      if s.m_isOff then none
      else some
        (ccaUpsert s now d (band, quantizeThreshold thr),
         if isPrimary && (GetState s band thr now == .IDLE) then
           [.notifyMaybeCcaBusyStart d]
         else [])
  | .switchToSleep _ _ =>
      if s.m_isOff then none
      else some
        ({ s with
           m_sleeping := true
           m_startSleep := now
           m_previousStateChangeTime := now },
         [.notifySleep])
  | .switchFromSleep d band _ thr =>
      if !s.m_isOff && s.m_sleeping then some
        (ccaUpsert
          { s with m_sleeping := false, m_previousStateChangeTime := now }
          now d (band, quantizeThreshold thr),
         [.notifyWakeup])
      else none
  | .switchToOff _ _ =>
      some
        ({ s with m_isOff := true, m_previousStateChangeTime := now },
         [.notifyOff])
  | .switchFromOff d band _ thr =>
      if s.m_isOff then some
        (ccaUpsert
          { s with m_isOff := false, m_previousStateChangeTime := now }
          now d (band, quantizeThreshold thr),
         [.notifyOn])
      else none

/-- Run a sequence of timed operations, threading the tracker state and
failing if any operation's precondition is violated. -/
def run (s : WifiPhyStateHelper) : List TimedOp → Option WifiPhyStateHelper
  | [] => some s
  | (t, op) :: rest =>
      (step s t op).bind fun p => run p.1 rest

/-- Run a sequence of timed operations, also accumulating every emitted
event in order. -/
def runE (s : WifiPhyStateHelper) :
    List TimedOp → Option (WifiPhyStateHelper × List PhyEvent)
  | [] => some (s, [])
  | (t, op) :: rest =>
      (step s t op).bind fun p =>
        (runE p.1 rest).map fun q => (q.1, p.2 ++ q.2)

/-! ### Helper lemmas -/

/-- The executable quantization agrees with Mathlib's `round`: the
occupancy-map key really is the threshold rounded to the nearest integer. -/
theorem quantizeThreshold_eq_round (t : ℚ) : quantizeThreshold t = round t := by
  have hd : ((t.den : ℚ)) ≠ 0 := by
    exact_mod_cast t.den_nz
  have ht : t + 1 / 2 = (((2 * t.num + (t.den : ℤ) : ℤ) : ℚ)) / (((2 * t.den : ℕ) : ℚ)) := by
    conv_lhs => rw [← Rat.num_div_den t]
    push_cast
    field_simp
    ring
  rw [round_eq, ht, Rat.floor_intCast_div_natCast, quantizeThreshold]
  push_cast
  rfl

/-- `ccaBusyAt` unfolded: the key is present in the end map and `now` is
strictly before the recorded busy end. -/
theorem ccaBusyAt_iff (s : WifiPhyStateHelper) (k : CcaKey) (now : Int) :
    ccaBusyAt s k now = true ↔ ∃ e, s.m_endCcaBusy k = some e ∧ now < e := by
  unfold ccaBusyAt
  cases h : s.m_endCcaBusy k <;> simp [h]

/-! ### Claim theorems: state derivation and queries -/

/-- C1: for every recorded tracker state and every `now`, band and
threshold, `GetState` returns the first state whose condition holds in the
fixed order Off, Sleep, Switching (`now` before the switching end), Tx,
Rx, CcaBusy (the quantized key is present in the band occupancy table and
`now` is before its busy end), else Idle.  Stated as an exact
characterization of each returned value by the precedence conditions. -/
theorem getState_precedence_order (s : WifiPhyStateHelper)
    (b : WifiSpectrumBand) (t : ℚ) (now : Int) :
    (GetState s b t now = .OFF ↔ s.m_isOff = true) ∧
    (GetState s b t now = .SLEEP ↔
      (s.m_isOff = false ∧ s.m_sleeping = true)) ∧
    (GetState s b t now = .SWITCHING ↔
      (s.m_isOff = false ∧ s.m_sleeping = false ∧ now < s.m_endSwitching)) ∧
    (GetState s b t now = .TX ↔
      (s.m_isOff = false ∧ s.m_sleeping = false ∧ ¬ now < s.m_endSwitching ∧
        now < s.m_endTx)) ∧
    (GetState s b t now = .RX ↔
      (s.m_isOff = false ∧ s.m_sleeping = false ∧ ¬ now < s.m_endSwitching ∧
        ¬ now < s.m_endTx ∧ now < s.m_endRx)) ∧
    (GetState s b t now = .CCA_BUSY ↔
      (s.m_isOff = false ∧ s.m_sleeping = false ∧ ¬ now < s.m_endSwitching ∧
        ¬ now < s.m_endTx ∧ ¬ now < s.m_endRx ∧
        ∃ e, s.m_endCcaBusy (b, quantizeThreshold t) = some e ∧ now < e)) ∧
    (GetState s b t now = .IDLE ↔
      (s.m_isOff = false ∧ s.m_sleeping = false ∧ ¬ now < s.m_endSwitching ∧
        ¬ now < s.m_endTx ∧ ¬ now < s.m_endRx ∧
        ¬ ∃ e, s.m_endCcaBusy (b, quantizeThreshold t) = some e ∧ now < e)) := by
  unfold GetState
  have hcca := ccaBusyAt_iff s (b, quantizeThreshold t) now
  split_ifs with h1 h2 h3 h4 h5 h6 <;> simp_all

/-- C5: requesting `SwitchToRx` while the derived state is Sleep violates
its precondition (the state must not be Off, Sleep, Tx or Switching): the
operation aborts instead of transitioning, modelled by `step` having no
post-state. -/
theorem switchToRx_while_sleep_fatal (s : WifiPhyStateHelper)
    (now : Int) (d : Nat) (b : WifiSpectrumBand) (t : ℚ)
    (h : GetState s b t now = .SLEEP) :
    step s now (.switchToRx d b t) = none := by
  simp only [step, h]

/-- Witness for `switchToRx_while_sleep_fatal`: the tracker right after
`SwitchToSleep` from the fresh state is derived Sleep, and `SwitchToRx`
then aborts. -/
theorem switchToRx_while_sleep_fatal_witness :
    GetState { initState with m_sleeping := true, m_startSleep := 3, m_previousStateChangeTime := 3 }
        (0, 0) (-80) 4 = .SLEEP ∧
    step { initState with m_sleeping := true, m_startSleep := 3, m_previousStateChangeTime := 3 }
        4 (.switchToRx 10 (0, 0) (-80)) = none :=
  ⟨by decide,
   switchToRx_while_sleep_fatal _ 4 10 (0, 0) (-80) (by decide)⟩

/-- C6: half-open Tx boundary.  Applying `SwitchToTx` with duration 10 at
time 0 to the fresh tracker succeeds, and for every band and threshold the
derived state is Tx at every time of the recorded interval `[0, 10)` (so
strictly before 10) and Idle at time exactly 10, because the Tx condition
requires `now` strictly below the recorded interval end. -/
theorem switchToTx_halfOpen_boundary (pb b : WifiSpectrumBand) (pt t : ℚ)
    (now : Int) (h0 : 0 ≤ now) (h10 : now < 10) :
    (step initState 0 (PhyOp.switchToTx 10 pb pt)).map
        (fun p => (GetState p.1 b t now, GetState p.1 b t 10))
      = some (WifiPhyState.TX, WifiPhyState.IDLE) := by
  have hstep : step initState 0 (PhyOp.switchToTx 10 pb pt)
      = some ({ initState with
                m_startTx := 0
                m_endTx := 0 + ((10 : Nat) : Int)
                m_previousStateChangeTime := 0 },
              [PhyEvent.notifyTxStart 10, PhyEvent.traceTx]) := rfl
  rw [hstep]
  simp only [Option.map_some', Option.some.injEq, Prod.mk.injEq]
  constructor
  · simp only [GetState, ccaBusyAt, initState]
    norm_num
    split_ifs <;> first | rfl | (exfalso; omega)
  · rfl

/-- Witness for `switchToTx_halfOpen_boundary` at the spec scenario's
sample time 5 (inside `[0, 10)`). -/
theorem switchToTx_halfOpen_boundary_witness :
    (0 : Int) ≤ 5 ∧ (5 : Int) < 10 ∧
    (step initState 0 (PhyOp.switchToTx 10 (0, 0) (-80))).map
        (fun p => (GetState p.1 (1, 2) (-62) 5, GetState p.1 (1, 2) (-62) 10))
      = some (WifiPhyState.TX, WifiPhyState.IDLE) :=
  ⟨by decide, by decide,
   switchToTx_halfOpen_boundary (0, 0) (1, 2) (-80) (-62) 5 (by decide) (by decide)⟩

/-- C7: `GetDelaySinceIdle(band, threshold, now)` returns `now` minus the
recorded busy end for the quantized key when one is recorded, and `now`
minus `previousStateChangeTime` when the key was never recorded busy. -/
theorem getDelaySinceIdle_spec (s : WifiPhyStateHelper)
    (b : WifiSpectrumBand) (t : ℚ) (now : Int) :
    (∀ e, s.m_endCcaBusy (b, quantizeThreshold t) = some e →
        GetDelaySinceIdle s b t now = now - e) ∧
    (s.m_endCcaBusy (b, quantizeThreshold t) = none →
        GetDelaySinceIdle s b t now = now - s.m_previousStateChangeTime) := by
  constructor
  · intro e he
    unfold GetDelaySinceIdle
    rw [he]
  · intro he
    unfold GetDelaySinceIdle
    rw [he]

/-- Witness for `getDelaySinceIdle_spec`: on a tracker with busy end 5
recorded for the key and on the fresh tracker (no entry, previous state
change at 0), the query returns `7 - 5` and `7 - 0` respectively. -/
theorem getDelaySinceIdle_spec_witness :
    GetDelaySinceIdle
        { initState with
          m_startCcaBusy := fun k => if k = ((0, 0), -80) then some 0 else none
          m_endCcaBusy := fun k => if k = ((0, 0), -80) then some 5 else none }
        (0, 0) (-80) 7 = 7 - 5 ∧
    GetDelaySinceIdle initState (0, 0) (-80) 7 = 7 - 0 :=
  ⟨(getDelaySinceIdle_spec _ (0, 0) (-80) 7).1 5 (by decide),
   (getDelaySinceIdle_spec initState (0, 0) (-80) 7).2 (by decide)⟩

/-- C8: threshold quantization congruence.  Two `double` thresholds that
quantize to the same integer key are indistinguishable: `GetState` answers
identically for them in every state, and `SwitchMaybeToCcaBusy` performs
the identical update (so an update keyed with `t1` is exactly the entry a
query with `t2` reads). -/
theorem threshold_quantization_congruent (s : WifiPhyStateHelper)
    (b : WifiSpectrumBand) (now : Int) (d : Nat) (p : Bool) (t1 t2 : ℚ)
    (h : quantizeThreshold t1 = quantizeThreshold t2) :
    GetState s b t1 now = GetState s b t2 now ∧
    step s now (.switchMaybeToCcaBusy d b p t1)
      = step s now (.switchMaybeToCcaBusy d b p t2) := by
  have hg : GetState s b t1 now = GetState s b t2 now := by
    unfold GetState
    rw [h]
  refine ⟨hg, ?_⟩
  simp only [step, h, hg]

/-- Witness for `threshold_quantization_congruent`: `-401/5 = -80.2` and
`-80` both quantize (round) to the key `-80`, and the conclusion holds on
a fresh-tracker call. -/
theorem threshold_quantization_congruent_witness :
    quantizeThreshold (Rat.mk' (-401) 5 (by decide) (by decide)) = quantizeThreshold (-80) ∧
    (GetState initState (0, 0) (Rat.mk' (-401) 5 (by decide) (by decide)) 3
        = GetState initState (0, 0) (-80) 3 ∧
      step initState 3 (.switchMaybeToCcaBusy 4 (0, 0) true (Rat.mk' (-401) 5 (by decide) (by decide)))
        = step initState 3 (.switchMaybeToCcaBusy 4 (0, 0) true (-80))) :=
  ⟨by decide,
   threshold_quantization_congruent initState (0, 0) 3 4 true
     (Rat.mk' (-401) 5 (by decide) (by decide)) (-80) (by decide)⟩

/-- C9: the query operations are side-effect free and each `IsStateX`
predicate returns exactly whether `GetState` derives `X`.  The queries are
`const` member functions of a class with no mutable fields (header lines
110-194), embedded as pure functions of the tracker value — they have no
way to alter flags, intervals, `previousStateChangeTime`, the occupancy
maps, the listener list or the callbacks; the theorem records the
`IsStateX(band, threshold) = (GetState(band, threshold) == X)` contract
for all seven state values. -/
theorem queries_pure_isState (s : WifiPhyStateHelper)
    (b : WifiSpectrumBand) (t : ℚ) (now : Int) :
    IsStateIdle s b t now = (GetState s b t now == .IDLE) ∧
    IsStateCcaBusy s b t now = (GetState s b t now == .CCA_BUSY) ∧
    IsStateTx s b t now = (GetState s b t now == .TX) ∧
    IsStateRx s b t now = (GetState s b t now == .RX) ∧
    IsStateSwitching s b t now = (GetState s b t now == .SWITCHING) ∧
    IsStateSleep s b t now = (GetState s b t now == .SLEEP) ∧
    IsStateOff s b t now = (GetState s b t now == .OFF) ∧
    GetLastRxStartTime s = s.m_startRx :=
  ⟨rfl, rfl, rfl, rfl, rfl, rfl, rfl, rfl⟩

/-! ### Band-occupancy upsert lemmas -/

/-- The upsert leaves every scalar field of the tracker unchanged. -/
theorem ccaUpsert_scalar (s : WifiPhyStateHelper) (now : Int) (d : Nat)
    (key : CcaKey) :
    (ccaUpsert s now d key).m_sleeping = s.m_sleeping ∧
    (ccaUpsert s now d key).m_isOff = s.m_isOff ∧
    (ccaUpsert s now d key).m_endTx = s.m_endTx ∧
    (ccaUpsert s now d key).m_endRx = s.m_endRx ∧
    (ccaUpsert s now d key).m_endSwitching = s.m_endSwitching ∧
    (ccaUpsert s now d key).m_startTx = s.m_startTx ∧
    (ccaUpsert s now d key).m_startRx = s.m_startRx ∧
    (ccaUpsert s now d key).m_startSwitching = s.m_startSwitching ∧
    (ccaUpsert s now d key).m_startSleep = s.m_startSleep ∧
    (ccaUpsert s now d key).m_previousStateChangeTime
      = s.m_previousStateChangeTime := by
  unfold ccaUpsert
  split <;> simp_all

/-- The busy end recorded at the upserted key: the maximum of the previous
end (when present) and `now + d`. -/
theorem ccaUpsert_end_self (s : WifiPhyStateHelper) (now : Int) (d : Nat)
    (key : CcaKey) :
    (ccaUpsert s now d key).m_endCcaBusy key =
      some (match s.m_endCcaBusy key with
            | none => now + (d : Int)
            | some e => max e (now + (d : Int))) := by
  unfold ccaUpsert ccaBusyEndExtends
  cases h : s.m_endCcaBusy key
  · simp [h]
  · rename_i e
    simp only [h, decide_eq_true_eq]
    split_ifs with hlt
    · simp [max_eq_right (le_of_lt hlt)]
    · rw [h, max_eq_left (not_lt.mp hlt)]

/-- Keys other than the upserted one are untouched in both maps. -/
theorem ccaUpsert_other (s : WifiPhyStateHelper) (now : Int) (d : Nat)
    (key k : CcaKey) (hk : k ≠ key) :
    (ccaUpsert s now d key).m_startCcaBusy k = s.m_startCcaBusy k ∧
    (ccaUpsert s now d key).m_endCcaBusy k = s.m_endCcaBusy k := by
  unfold ccaUpsert
  split <;> simp [hk]

/-- Every busy-start entry after the upsert is either the old entry or
`now`. -/
theorem ccaUpsert_start_cases (s : WifiPhyStateHelper) (now : Int)
    (d : Nat) (key k : CcaKey) :
    (ccaUpsert s now d key).m_startCcaBusy k = s.m_startCcaBusy k ∨
    (ccaUpsert s now d key).m_startCcaBusy k = some now := by
  unfold ccaUpsert
  split
  · by_cases hk : k = key <;> simp [hk]
  · left
    rfl

/-- Every busy-end entry after the upsert is at least the old entry for
the same key: the upsert never decreases a recorded busy end. -/
theorem ccaUpsert_end_mono (s : WifiPhyStateHelper) (now : Int) (d : Nat)
    (key k : CcaKey) (e : Int) (he : s.m_endCcaBusy k = some e) :
    ∃ e', (ccaUpsert s now d key).m_endCcaBusy k = some e' ∧ e ≤ e' := by
  by_cases hk : k = key
  · subst hk
    refine ⟨_, ccaUpsert_end_self s now d k, ?_⟩
    rw [he]
    simp
  · exact ⟨e, by rw [(ccaUpsert_other s now d key k hk).2, he], le_refl e⟩

/-- The upsert keeps the start and end maps keyed identically and keeps
each start at or below its paired end. -/
theorem ccaUpsert_aligned (s : WifiPhyStateHelper) (now : Int) (d : Nat)
    (key : CcaKey)
    (hsome : ∀ k, (s.m_startCcaBusy k).isSome = (s.m_endCcaBusy k).isSome)
    (hpair : ∀ k a e, s.m_startCcaBusy k = some a → s.m_endCcaBusy k = some e → a ≤ e) :
    (∀ k, ((ccaUpsert s now d key).m_startCcaBusy k).isSome
        = ((ccaUpsert s now d key).m_endCcaBusy k).isSome) ∧
    (∀ k a e, (ccaUpsert s now d key).m_startCcaBusy k = some a →
        (ccaUpsert s now d key).m_endCcaBusy k = some e → a ≤ e) := by
  unfold ccaUpsert
  split
  · constructor
    · intro k
      by_cases hk : k = key <;> simp [hk, hsome k]
    · intro k a e ha he
      by_cases hk : k = key
      · subst hk
        simp at ha he
        omega
      · simp only [if_neg hk] at ha he
        exact hpair k a e ha he
  · exact ⟨hsome, hpair⟩

/-! ### Claim C2: busy-end monotonicity of SwitchMaybeToCcaBusy -/

/-- A tracker that already records a busy end of 100 for band `(0,0)` at
quantized threshold `-80`, produced by the tracker's own operation from
the fresh state. -/
def busyUntil100 : WifiPhyStateHelper :=
  (run initState [(0, PhyOp.switchMaybeToCcaBusy 100 (0, 0) true (-80))]).getD initState

/-- C2 counterexample: on a tracker whose `(b, t)` entry already ends at
100, calling `SwitchMaybeToCcaBusy(1, b, true, t)` at time 0 twice
(`n1 = n2 = 0 ≥ n1`, `d1 = d2 = 1`) leaves the busy end at 100, not at
`max(n1+d1, n2+d2) = 1` as the claim states for every state. -/
theorem ccaBusy_end_max_counterexample :
    ((step busyUntil100 0 (PhyOp.switchMaybeToCcaBusy 1 (0, 0) true (-80))).bind
        (fun p => step p.1 0 (PhyOp.switchMaybeToCcaBusy 1 (0, 0) true (-80)))).map
        (fun p => p.1.m_endCcaBusy ((0, 0), quantizeThreshold (-80)))
      = some (some 100) ∧
    some (some (100 : Int))
      ≠ some (some (max ((0 : Int) + ((1 : Nat) : Int)) ((0 : Int) + ((1 : Nat) : Int)))) ∧
    busyUntil100.m_isOff = false := by
  refine ⟨by decide, by decide, by decide⟩

/-- C2 (amended): two successive `SwitchMaybeToCcaBusy` calls for the same
band and threshold at times `n1 ≤ n2` (on a tracker that is not powered
off) leave the busy end for `(b, t)` equal to the maximum of the
previously recorded busy end (when one exists) and `max(n1+d1, n2+d2)`;
when `(b, t)` had no recorded entry this is exactly `max(n1+d1, n2+d2)`.
Moreover no call ever decreases any recorded busy end (so a second call
with a shorter remaining duration leaves the busy end unchanged). -/
theorem ccaBusy_end_monotone (s : WifiPhyStateHelper) (b : WifiSpectrumBand)
    (t : ℚ) (p1 p2 : Bool) (n1 n2 : Int) (d1 d2 : Nat)
    (_hle : n1 ≤ n2) (hoff : s.m_isOff = false) :
    (∃ s1 ev1 s2 ev2,
      step s n1 (.switchMaybeToCcaBusy d1 b p1 t) = some (s1, ev1) ∧
      step s1 n2 (.switchMaybeToCcaBusy d2 b p2 t) = some (s2, ev2) ∧
      s2.m_endCcaBusy (b, quantizeThreshold t) =
        some (match s.m_endCcaBusy (b, quantizeThreshold t) with
              | none => max (n1 + (d1 : Int)) (n2 + (d2 : Int))
              | some e => max e (max (n1 + (d1 : Int)) (n2 + (d2 : Int))))) ∧
    (∀ (n : Int) (d : Nat) (p : Bool) (s' : WifiPhyStateHelper) (ev : List PhyEvent),
      step s n (.switchMaybeToCcaBusy d b p t) = some (s', ev) →
      ∀ k e, s.m_endCcaBusy k = some e → ∃ e', s'.m_endCcaBusy k = some e' ∧ e ≤ e') := by
  have hstep : ∀ (s0 : WifiPhyStateHelper) (n : Int) (d : Nat) (p : Bool),
      s0.m_isOff = false →
      step s0 n (.switchMaybeToCcaBusy d b p t)
        = some (ccaUpsert s0 n d (b, quantizeThreshold t),
            if p && (GetState s0 b t n == .IDLE) then
              [PhyEvent.notifyMaybeCcaBusyStart d]
            else []) := by
    intro s0 n d p h0
    simp [step, h0]
  constructor
  · have h1 := hstep s n1 d1 p1 hoff
    have hoff1 : (ccaUpsert s n1 d1 (b, quantizeThreshold t)).m_isOff = false := by
      rw [(ccaUpsert_scalar s n1 d1 (b, quantizeThreshold t)).2.1, hoff]
    have h2 := hstep (ccaUpsert s n1 d1 (b, quantizeThreshold t)) n2 d2 p2 hoff1
    refine ⟨_, _, _, _, h1, h2, ?_⟩
    rw [ccaUpsert_end_self, ccaUpsert_end_self]
    cases h : s.m_endCcaBusy (b, quantizeThreshold t) <;> simp [h, max_assoc]
  · intro n d p s' ev h k e he
    rw [hstep s n d p hoff] at h
    simp only [Option.some.injEq, Prod.mk.injEq] at h
    obtain ⟨h1, -⟩ := h
    subst h1
    exact ccaUpsert_end_mono s n d _ k e he

/-- Witness for `ccaBusy_end_monotone`, realising the spec scenario:
`SwitchMaybeToCcaBusy(5, bandA, true, -80)` at time 0 then
`SwitchMaybeToCcaBusy(3, bandA, true, -80)` at time 1 on the fresh
tracker leave the busy end at `max(0+5, 1+3) = 5`. -/
theorem ccaBusy_end_monotone_witness :
    ∃ s1 ev1 s2 ev2,
      step initState 0 (PhyOp.switchMaybeToCcaBusy 5 (0, 0) true (-80)) = some (s1, ev1) ∧
      step s1 1 (PhyOp.switchMaybeToCcaBusy 3 (0, 0) true (-80)) = some (s2, ev2) ∧
      s2.m_endCcaBusy ((0, 0), quantizeThreshold (-80)) = some 5 := by
  obtain ⟨⟨s1, ev1, s2, ev2, h1, h2, h3⟩, -⟩ :=
    ccaBusy_end_monotone initState (0, 0) (-80) true true 0 1 5 3 (by decide) (by decide)
  refine ⟨s1, ev1, s2, ev2, h1, h2, ?_⟩
  rw [h3]
  decide

/-! ### Claim C4: exactly-once delivery -/

/-- Whether an event is an invocation of one of the two delivery callbacks
(`m_rxOkCallback` / `m_rxErrorCallback`). -/
def isDeliveryEvent : PhyEvent → Bool
  | .rxOkDelivery => true
  | .rxErrorDelivery => true
  | _ => false

/-- `ContinueRxNextMpdu` neither changes the tracker nor emits any event
(in particular it invokes no delivery callback). -/
theorem step_continueRx_silent (s : WifiPhyStateHelper) (now : Int)
    (s' : WifiPhyStateHelper) (ev : List PhyEvent)
    (h : step s now .continueRxNextMpdu = some (s', ev)) :
    s' = s ∧ ev = [] := by
  simp only [step] at h
  cases hg : stateAnyBand s now <;> rw [hg] at h <;> simp_all

/-- A successful `SwitchToRx` emits exactly the start-of-reception
notification. -/
theorem step_switchToRx_events (s : WifiPhyStateHelper) (now : Int) (d : Nat)
    (pb : WifiSpectrumBand) (pt : ℚ) (s' : WifiPhyStateHelper)
    (ev : List PhyEvent)
    (h : step s now (.switchToRx d pb pt) = some (s', ev)) :
    ev = [.notifyRxStart d] := by
  simp only [step] at h
  cases hg : GetState s pb pt now <;> rw [hg] at h <;> simp_all

/-- A successful `SwitchFromRxEndOk` emits the end-ok notification, the
rx-ok trace and exactly one invocation of the success delivery callback. -/
theorem step_rxEndOk_events (s : WifiPhyStateHelper) (now : Int)
    (s' : WifiPhyStateHelper) (ev : List PhyEvent)
    (h : step s now .switchFromRxEndOk = some (s', ev)) :
    ev = [.notifyRxEndOk, .traceRxOk, .rxOkDelivery] := by
  simp only [step] at h
  cases hg : stateAnyBand s now <;> rw [hg] at h <;> simp_all

/-- A successful `SwitchFromRxEndError` emits the end-error notification,
the rx-error trace and exactly one invocation of the failure delivery
callback. -/
theorem step_rxEndError_events (s : WifiPhyStateHelper) (now : Int)
    (s' : WifiPhyStateHelper) (ev : List PhyEvent)
    (h : step s now .switchFromRxEndError = some (s', ev)) :
    ev = [.notifyRxEndError, .traceRxError, .rxErrorDelivery] := by
  simp only [step] at h
  cases hg : stateAnyBand s now <;> rw [hg] at h <;> simp_all

/-- A prefix consisting only of `ContinueRxNextMpdu` operations contributes
neither state change nor events to a successful run. -/
theorem runE_continues_elim (mid : List TimedOp)
    (hmid : ∀ x ∈ mid, x.2 = PhyOp.continueRxNextMpdu) (l : List TimedOp) :
    ∀ s out, runE s (mid ++ l) = some out → runE s l = some out := by
  induction mid with
  | nil =>
      intro s out h
      exact h
  | cons hd rest ih =>
      intro s out h
      obtain ⟨t, op⟩ := hd
      have hop : op = PhyOp.continueRxNextMpdu := hmid (t, op) (by simp)
      subst hop
      rw [List.cons_append] at h
      simp only [runE] at h
      cases hstep : step s t PhyOp.continueRxNextMpdu with
      | none =>
          rw [hstep] at h
          exact absurd h (by simp)
      | some p =>
          obtain ⟨s2, ev2⟩ := p
          obtain ⟨hs2, hev2⟩ := step_continueRx_silent s t s2 ev2 hstep
          subst hev2
          rw [hstep] at h
          simp only [Option.some_bind] at h
          cases hrest : runE s2 (rest ++ l) with
          | none =>
              rw [hrest] at h
              exact absurd h (by simp)
          | some out2 =>
              obtain ⟨s3, ev3⟩ := out2
              rw [hrest] at h
              simp only [Option.map_some', List.nil_append] at h
              obtain rfl : (s3, ev3) = out := Option.some.inj h
              rw [hs2] at hrest
              exact ih (fun x hx => hmid x (by simp [hx])) s (s3, ev3) hrest

/-- C4: exactly-once delivery.  For every reception episode — a successful
`SwitchToRx`, any number of `ContinueRxNextMpdu` calls, closed by
`SwitchFromRxEndOk` or `SwitchFromRxEndError` — the events emitted over
the whole episode contain exactly one delivery-callback invocation (the
success callback for EndOk, the failure callback for EndError), and a
`ContinueRxNextMpdu` call never contributes a delivery-callback
invocation. -/
theorem rx_delivery_exactly_once (s0 : WifiPhyStateHelper) (t0 tEnd : Int)
    (d : Nat) (pb : WifiSpectrumBand) (pt : ℚ) (mid : List TimedOp)
    (endOp : PhyOp) (sF : WifiPhyStateHelper) (evs : List PhyEvent)
    (hmid : ∀ x ∈ mid, x.2 = PhyOp.continueRxNextMpdu)
    (hend : endOp = PhyOp.switchFromRxEndOk ∨ endOp = PhyOp.switchFromRxEndError)
    (hrun : runE s0 ((t0, PhyOp.switchToRx d pb pt) :: (mid ++ [(tEnd, endOp)]))
      = some (sF, evs)) :
    List.countP (fun e => isDeliveryEvent e) evs = 1 ∧
    (∀ (s : WifiPhyStateHelper) (t : Int) (s' : WifiPhyStateHelper)
        (ev : List PhyEvent),
      step s t PhyOp.continueRxNextMpdu = some (s', ev) →
      List.countP (fun e => isDeliveryEvent e) ev = 0) := by
  constructor
  · simp only [runE] at hrun
    cases hstep1 : step s0 t0 (PhyOp.switchToRx d pb pt) with
    | none =>
        rw [hstep1] at hrun
        exact absurd hrun (by simp)
    | some p1 =>
        obtain ⟨s1, ev1⟩ := p1
        have hev1 : ev1 = [.notifyRxStart d] :=
          step_switchToRx_events s0 t0 d pb pt s1 ev1 hstep1
        rw [hstep1] at hrun
        simp only [Option.some_bind] at hrun
        cases hmidrun : runE s1 (mid ++ [(tEnd, endOp)]) with
        | none =>
            rw [hmidrun] at hrun
            exact absurd hrun (by simp)
        | some q =>
            obtain ⟨s2, ev2⟩ := q
            rw [hmidrun] at hrun
            simp only [Option.map_some', Option.some.injEq, Prod.mk.injEq] at hrun
            obtain ⟨hsf, hevs⟩ := hrun
            have htail := runE_continues_elim mid hmid [(tEnd, endOp)] s1 (s2, ev2) hmidrun
            simp only [runE] at htail
            cases hstep2 : step s1 tEnd endOp with
            | none =>
                rw [hstep2] at htail
                exact absurd htail (by simp)
            | some p2 =>
                obtain ⟨s3, ev3⟩ := p2
                rw [hstep2] at htail
                simp only [Option.some_bind, Option.map_some', List.append_nil,
                  Option.some.injEq, Prod.mk.injEq] at htail
                obtain ⟨hs3, hev3⟩ := htail
                rcases hend with rfl | rfl
                · have he3 : ev3 = [.notifyRxEndOk, .traceRxOk, .rxOkDelivery] :=
                    step_rxEndOk_events s1 tEnd s3 ev3 hstep2
                  rw [← hevs, hev1, ← hev3, he3]
                  simp [List.countP_append, List.countP_cons, isDeliveryEvent]
                · have he3 : ev3 = [.notifyRxEndError, .traceRxError, .rxErrorDelivery] :=
                    step_rxEndError_events s1 tEnd s3 ev3 hstep2
                  rw [← hevs, hev1, ← hev3, he3]
                  simp [List.countP_append, List.countP_cons, isDeliveryEvent]
  · intro s t s' ev h
    obtain ⟨-, rfl⟩ := step_continueRx_silent s t s' ev h
    rfl

/-- Witness operation list for `rx_delivery_exactly_once`: reception of 10
starting at time 0, one aggregate sub-frame continuation at time 1, closed
successfully at time 5. -/
def rxEpisodeOps : List TimedOp :=
  (0, PhyOp.switchToRx 10 (0, 0) (-80))
    :: ([(1, PhyOp.continueRxNextMpdu)] ++ [(5, PhyOp.switchFromRxEndOk)])

/-- Witness for `rx_delivery_exactly_once` on the concrete episode
`rxEpisodeOps` run from the fresh tracker. -/
theorem rx_delivery_exactly_once_witness :
    List.countP (fun e => isDeliveryEvent e)
      ((runE initState rxEpisodeOps).getD (initState, [])).2 = 1 :=
  (rx_delivery_exactly_once initState 0 5 10 (0, 0) (-80)
    [(1, PhyOp.continueRxNextMpdu)] PhyOp.switchFromRxEndOk
    ((runE initState rxEpisodeOps).getD (initState, [])).1
    ((runE initState rxEpisodeOps).getD (initState, [])).2
    (by decide) (Or.inl rfl) (by rfl)).1

/-! ### Claims C3 and C10: run invariants -/

/-- Event times of a timed-operation sequence are nondecreasing and bounded
below by `t` (the scheduler delivers events in nondecreasing simulated-time
order). -/
def Chrono : Int → List TimedOp → Prop
  | _, [] => True
  | t, o :: rest => t ≤ o.1 ∧ Chrono o.1 rest

/-- The time of the last operation of the sequence (`t` for the empty
sequence). -/
def endTime : Int → List TimedOp → Int
  | t, [] => t
  | _, o :: rest => endTime o.1 rest

/-- All recorded timestamps of the tracker are at most `t`. -/
def StampsLe (s : WifiPhyStateHelper) (t : Int) : Prop :=
  s.m_previousStateChangeTime ≤ t ∧ s.m_startTx ≤ t ∧ s.m_startRx ≤ t ∧
    s.m_startSwitching ≤ t ∧ s.m_startSleep ≤ t

/-- Every stored interval end timestamp is at least its paired start
timestamp (for the tx, rx and switching intervals and for every entry of
the band occupancy table). -/
def IntervalInv (s : WifiPhyStateHelper) : Prop :=
  s.m_startTx ≤ s.m_endTx ∧ s.m_startRx ≤ s.m_endRx ∧
    s.m_startSwitching ≤ s.m_endSwitching ∧
    (∀ k a e, s.m_startCcaBusy k = some a → s.m_endCcaBusy k = some e → a ≤ e)

/-- Between `s` and `s'`, `previousStateChangeTime` and every interval
start (including every busy-start entry) is either untouched or newly
recorded as exactly the call time `now`. -/
def StartsRecordedAt (s s' : WifiPhyStateHelper) (now : Int) : Prop :=
  (s'.m_previousStateChangeTime = s.m_previousStateChangeTime ∨
    s'.m_previousStateChangeTime = now) ∧
  (s'.m_startTx = s.m_startTx ∨ s'.m_startTx = now) ∧
  (s'.m_startRx = s.m_startRx ∨ s'.m_startRx = now) ∧
  (s'.m_startSwitching = s.m_startSwitching ∨ s'.m_startSwitching = now) ∧
  (s'.m_startSleep = s.m_startSleep ∨ s'.m_startSleep = now) ∧
  (∀ k, s'.m_startCcaBusy k = s.m_startCcaBusy k ∨
    s'.m_startCcaBusy k = some now)

/-- The upsert preserves the start-below-end property of the occupancy
table. -/
theorem ccaUpsert_pairs (s : WifiPhyStateHelper) (now : Int) (d : Nat)
    (key : CcaKey)
    (hpair : ∀ k a e, s.m_startCcaBusy k = some a → s.m_endCcaBusy k = some e → a ≤ e) :
    ∀ k a e, (ccaUpsert s now d key).m_startCcaBusy k = some a →
      (ccaUpsert s now d key).m_endCcaBusy k = some e → a ≤ e := by
  intro k a e ha he
  by_cases hcond : ccaBusyEndExtends (s.m_endCcaBusy key) (now + (d : Int)) = true
  · simp only [ccaUpsert, if_pos hcond] at ha he
    by_cases hk : k = key
    · subst hk
      simp at ha he
      omega
    · simp only [if_neg hk] at ha he
      exact hpair k a e ha he
  · simp only [ccaUpsert, if_neg hcond] at ha he
    exact hpair k a e ha he

/-- Splitting `Chrono` over an appended final operation. -/
theorem chrono_append_last (t : Int) (ops : List TimedOp) (op : TimedOp) :
    Chrono t (ops ++ [op]) → Chrono t ops ∧ endTime t ops ≤ op.1 := by
  induction ops generalizing t with
  | nil =>
      intro h
      exact ⟨trivial, h.1⟩
  | cons hd rest ih =>
      intro h
      obtain ⟨h1, h2⟩ := h
      obtain ⟨h3, h4⟩ := ih hd.1 h2
      exact ⟨⟨h1, h3⟩, h4⟩

/-- One successful transition from a tracker whose timestamps are bounded
by `t ≤ now` keeps all timestamps bounded by `now`, keeps every interval
end at or above its paired start, and records new starts (and the new
`previousStateChangeTime`) as exactly `now`. -/
theorem step_inv (s : WifiPhyStateHelper) (t now : Int) (op : PhyOp)
    (s' : WifiPhyStateHelper) (ev : List PhyEvent)
    (hst : StampsLe s t) (htn : t ≤ now) (hint : IntervalInv s)
    (h : step s now op = some (s', ev)) :
    StampsLe s' now ∧ IntervalInv s' ∧ StartsRecordedAt s s' now := by
  obtain ⟨hp, htx, hrx, hsw, hsl⟩ := hst
  obtain ⟨itx, irx, isw, icca⟩ := hint
  cases op with
  | switchToTx d pb pt =>
      cases hg : GetState s pb pt now <;> simp [step, hg] at h <;>
        (obtain ⟨rfl, rfl⟩ := h
         refine ⟨⟨?_, ?_, ?_, ?_, ?_⟩, ⟨?_, irx, isw, icca⟩, Or.inr rfl,
           Or.inr rfl, Or.inl rfl, Or.inl rfl, Or.inl rfl,
           fun k => Or.inl rfl⟩ <;> (try simp) <;> omega)
  | switchToRx d pb pt =>
      cases hg : GetState s pb pt now <;> simp [step, hg] at h <;>
        (obtain ⟨rfl, rfl⟩ := h
         refine ⟨⟨?_, ?_, ?_, ?_, ?_⟩, ⟨itx, ?_, isw, icca⟩, Or.inr rfl,
           Or.inl rfl, Or.inr rfl, Or.inl rfl, Or.inl rfl,
           fun k => Or.inl rfl⟩ <;> (try simp) <;> omega)
  | switchToChannelSwitching d pb pt =>
      cases hg : GetState s pb pt now <;> simp [step, hg] at h <;>
        (obtain ⟨rfl, rfl⟩ := h
         refine ⟨⟨?_, ?_, ?_, ?_, ?_⟩, ⟨itx, irx, ?_, icca⟩, Or.inr rfl,
           Or.inl rfl, Or.inl rfl, Or.inr rfl, Or.inl rfl,
           fun k => Or.inl rfl⟩ <;> (try simp) <;> omega)
  | continueRxNextMpdu =>
      cases hg : stateAnyBand s now <;> simp [step, hg] at h <;>
        (obtain ⟨rfl, rfl⟩ := h
         refine ⟨⟨?_, ?_, ?_, ?_, ?_⟩, ⟨itx, irx, isw, icca⟩, Or.inl rfl,
           Or.inl rfl, Or.inl rfl, Or.inl rfl, Or.inl rfl,
           fun k => Or.inl rfl⟩ <;> omega)
  | switchFromRxEndOk =>
      cases hg : stateAnyBand s now <;> simp [step, hg] at h <;>
        (obtain ⟨rfl, rfl⟩ := h
         refine ⟨⟨?_, ?_, ?_, ?_, ?_⟩, ⟨itx, ?_, isw, icca⟩, Or.inr rfl,
           Or.inl rfl, Or.inl rfl, Or.inl rfl, Or.inl rfl,
           fun k => Or.inl rfl⟩ <;> (try simp) <;> omega)
  | switchFromRxEndError =>
      cases hg : stateAnyBand s now <;> simp [step, hg] at h <;>
        (obtain ⟨rfl, rfl⟩ := h
         refine ⟨⟨?_, ?_, ?_, ?_, ?_⟩, ⟨itx, ?_, isw, icca⟩, Or.inr rfl,
           Or.inl rfl, Or.inl rfl, Or.inl rfl, Or.inl rfl,
           fun k => Or.inl rfl⟩ <;> (try simp) <;> omega)
  | switchFromRxAbort failure =>
      cases hg : stateAnyBand s now <;> simp [step, hg] at h <;>
        (obtain ⟨rfl, rfl⟩ := h
         refine ⟨⟨?_, ?_, ?_, ?_, ?_⟩, ⟨itx, ?_, isw, icca⟩, Or.inr rfl,
           Or.inl rfl, Or.inl rfl, Or.inl rfl, Or.inl rfl,
           fun k => Or.inl rfl⟩ <;> (try simp) <;> omega)
  | switchMaybeToCcaBusy d band isPrimary thr =>
      cases hoff : s.m_isOff <;> simp [step, hoff] at h
      obtain ⟨rfl, rfl⟩ := h
      obtain ⟨hc1, hc2, hc3, hc4, hc5, hc6, hc7, hc8, hc9, hc10⟩ :=
        ccaUpsert_scalar s now d (band, quantizeThreshold thr)
      refine ⟨⟨?_, ?_, ?_, ?_, ?_⟩, ⟨?_, ?_, ?_,
          ccaUpsert_pairs s now d _ icca⟩, Or.inl hc10, Or.inl hc6,
          Or.inl hc7, Or.inl hc8, Or.inl hc9,
          fun k => ccaUpsert_start_cases s now d _ k⟩ <;>
        simp only [hc1, hc2, hc3, hc4, hc5, hc6, hc7, hc8, hc9, hc10] <;>
        omega
  | switchToSleep pb pt =>
      cases hoff : s.m_isOff <;> simp [step, hoff] at h
      obtain ⟨rfl, rfl⟩ := h
      refine ⟨⟨?_, ?_, ?_, ?_, ?_⟩, ⟨itx, irx, isw, icca⟩, Or.inr rfl,
        Or.inl rfl, Or.inl rfl, Or.inl rfl, Or.inr rfl,
        fun k => Or.inl rfl⟩ <;> (try simp) <;> omega
  | switchFromSleep d band isPrimary thr =>
      by_cases hcond : (!s.m_isOff && s.m_sleeping) = true <;>
        simp only [step, hcond, if_true, if_false] at h
      · obtain ⟨rfl, rfl⟩ := Prod.mk.inj (Option.some.inj h)
        obtain ⟨hc1, hc2, hc3, hc4, hc5, hc6, hc7, hc8, hc9, hc10⟩ :=
          ccaUpsert_scalar
            { s with m_sleeping := false, m_previousStateChangeTime := now }
            now d (band, quantizeThreshold thr)
        refine ⟨⟨?_, ?_, ?_, ?_, ?_⟩, ⟨?_, ?_, ?_,
            ccaUpsert_pairs _ now d _ icca⟩, Or.inr (hc10.trans rfl),
            Or.inl hc6, Or.inl hc7, Or.inl hc8, Or.inl hc9,
            fun k => ccaUpsert_start_cases _ now d _ k⟩ <;>
          simp only [hc1, hc2, hc3, hc4, hc5, hc6, hc7, hc8, hc9, hc10] <;>
          (try simp) <;> omega
      · exact absurd h (by simp)
  | switchToOff pb pt =>
      simp [step] at h
      obtain ⟨rfl, rfl⟩ := h
      refine ⟨⟨?_, ?_, ?_, ?_, ?_⟩, ⟨itx, irx, isw, icca⟩, Or.inr rfl,
        Or.inl rfl, Or.inl rfl, Or.inl rfl, Or.inl rfl,
        fun k => Or.inl rfl⟩ <;> (try simp) <;> omega
  | switchFromOff d band isPrimary thr =>
      cases hoff : s.m_isOff <;> simp only [step, hoff, if_true, if_false,
        Bool.true_eq_false, Bool.false_eq_true] at h
      · exact absurd h (by simp)
      · obtain ⟨rfl, rfl⟩ := Prod.mk.inj (Option.some.inj h)
        obtain ⟨hc1, hc2, hc3, hc4, hc5, hc6, hc7, hc8, hc9, hc10⟩ :=
          ccaUpsert_scalar
            { s with m_isOff := false, m_previousStateChangeTime := now }
            now d (band, quantizeThreshold thr)
        refine ⟨⟨?_, ?_, ?_, ?_, ?_⟩, ⟨?_, ?_, ?_,
            ccaUpsert_pairs _ now d _ icca⟩, Or.inr (hc10.trans rfl),
            Or.inl hc6, Or.inl hc7, Or.inl hc8, Or.inl hc9,
            fun k => ccaUpsert_start_cases _ now d _ k⟩ <;>
          simp only [hc1, hc2, hc3, hc4, hc5, hc6, hc7, hc8, hc9, hc10] <;>
          (try simp) <;> omega

/-- The invariants survive any chronological successful run. -/
theorem run_inv (ops : List TimedOp) :
    ∀ (s : WifiPhyStateHelper) (t : Int) (s' : WifiPhyStateHelper),
      StampsLe s t → IntervalInv s → Chrono t ops → run s ops = some s' →
      StampsLe s' (endTime t ops) ∧ IntervalInv s' := by
  induction ops with
  | nil =>
      intro s t s' hst hint _ hrun
      obtain rfl : s = s' := Option.some.inj hrun
      exact ⟨hst, hint⟩
  | cons hd rest ih =>
      intro s t s' hst hint hch hrun
      obtain ⟨t1, op⟩ := hd
      obtain ⟨hle, hchRest⟩ := hch
      simp only [run] at hrun
      cases hstep : step s t1 op with
      | none =>
          rw [hstep] at hrun
          exact absurd hrun (by simp)
      | some p =>
          obtain ⟨s1, ev1⟩ := p
          rw [hstep] at hrun
          simp only [Option.some_bind] at hrun
          obtain ⟨h1, h2, -⟩ := step_inv s t t1 op s1 ev1 hst hle hint hstep
          exact ih s1 t1 s' h1 h2 hchRest hrun

/-- C3: timestamp monotonicity.  Along every valid transition sequence
(event times nondecreasing from 0, every precondition satisfied), for the
next operation applied at time `now = op.1`: `previousStateChangeTime` at
the moment of the call is at most `now`; the operation records each start
timestamp (and the new `previousStateChangeTime`) either unchanged or as
exactly `now` — hence every newly recorded start equals `now` and is at
least the `previousStateChangeTime` seen at the call; and afterwards every
stored interval end is at least its paired start. -/
theorem transitions_timestamp_monotone (ops : List TimedOp) (op : TimedOp)
    (s s' : WifiPhyStateHelper) (ev : List PhyEvent)
    (hch : Chrono 0 (ops ++ [op]))
    (hrun : run initState ops = some s)
    (hstep : step s op.1 op.2 = some (s', ev)) :
    s.m_previousStateChangeTime ≤ op.1 ∧
    StartsRecordedAt s s' op.1 ∧
    IntervalInv s' := by
  obtain ⟨hch0, hend⟩ := chrono_append_last 0 ops op hch
  have hst0 : StampsLe initState 0 :=
    ⟨le_refl 0, le_refl 0, le_refl 0, le_refl 0, le_refl 0⟩
  have hint0 : IntervalInv initState :=
    ⟨le_refl 0, le_refl 0, le_refl 0, fun _ _ _ ha _ => Option.noConfusion ha⟩
  obtain ⟨hst, hint⟩ := run_inv ops initState 0 s hst0 hint0 hch0 hrun
  obtain ⟨-, h2, h3⟩ := step_inv s (endTime 0 ops) op.1 op.2 s' ev hst hend hint hstep
  exact ⟨le_trans hst.1 hend, h3, h2⟩

/-- Witness prefix for `transitions_timestamp_monotone`: a transmission at
time 0 and a sleep at time 3. -/
def C3firstOps : List TimedOp :=
  [(0, PhyOp.switchToTx 10 (0, 0) (-80)), (3, PhyOp.switchToSleep (0, 0) (-80))]

/-- Witness final operation for `transitions_timestamp_monotone`: waking up
at time 12 with a 2-tick busy seed. -/
def C3last : TimedOp := (12, PhyOp.switchFromSleep 2 (0, 0) true (-80))

/-- The tracker after the witness prefix. -/
def C3mid : WifiPhyStateHelper := (run initState C3firstOps).getD initState

/-- The tracker and events after the witness final operation. -/
def C3fin : WifiPhyStateHelper × List PhyEvent :=
  (step C3mid C3last.1 C3last.2).getD (initState, [])

/-- Witness for `transitions_timestamp_monotone` on the concrete sequence
`C3firstOps ++ [C3last]` from the fresh tracker. -/
theorem transitions_timestamp_monotone_witness :
    C3mid.m_previousStateChangeTime ≤ C3last.1 ∧
    StartsRecordedAt C3mid C3fin.1 C3last.1 ∧
    IntervalInv C3fin.1 :=
  transitions_timestamp_monotone C3firstOps C3last C3mid C3fin.1 C3fin.2
    ⟨by decide, by decide, by decide, trivial⟩ (by rfl) (by rfl)

/-- C10's invariant: the start and end occupancy maps hold exactly the same
keys, and each start is at most its paired end. -/
def CcaMapsAligned (s : WifiPhyStateHelper) : Prop :=
  (∀ k, (s.m_startCcaBusy k).isSome = (s.m_endCcaBusy k).isSome) ∧
  (∀ k a e, s.m_startCcaBusy k = some a → s.m_endCcaBusy k = some e → a ≤ e)

/-- Every single transition preserves occupancy-map alignment. -/
theorem step_ccaAligned (s : WifiPhyStateHelper) (now : Int) (op : PhyOp)
    (s' : WifiPhyStateHelper) (ev : List PhyEvent)
    (hal : CcaMapsAligned s) (h : step s now op = some (s', ev)) :
    CcaMapsAligned s' := by
  obtain ⟨hsome, hpair⟩ := hal
  cases op with
  | switchToTx d pb pt =>
      cases hg : GetState s pb pt now <;> simp [step, hg] at h <;>
        (obtain ⟨rfl, rfl⟩ := h; exact ⟨hsome, hpair⟩)
  | switchToRx d pb pt =>
      cases hg : GetState s pb pt now <;> simp [step, hg] at h <;>
        (obtain ⟨rfl, rfl⟩ := h; exact ⟨hsome, hpair⟩)
  | switchToChannelSwitching d pb pt =>
      cases hg : GetState s pb pt now <;> simp [step, hg] at h <;>
        (obtain ⟨rfl, rfl⟩ := h; exact ⟨hsome, hpair⟩)
  | continueRxNextMpdu =>
      cases hg : stateAnyBand s now <;> simp [step, hg] at h <;>
        (obtain ⟨rfl, rfl⟩ := h; exact ⟨hsome, hpair⟩)
  | switchFromRxEndOk =>
      cases hg : stateAnyBand s now <;> simp [step, hg] at h <;>
        (obtain ⟨rfl, rfl⟩ := h; exact ⟨hsome, hpair⟩)
  | switchFromRxEndError =>
      cases hg : stateAnyBand s now <;> simp [step, hg] at h <;>
        (obtain ⟨rfl, rfl⟩ := h; exact ⟨hsome, hpair⟩)
  | switchFromRxAbort failure =>
      cases hg : stateAnyBand s now <;> simp [step, hg] at h <;>
        (obtain ⟨rfl, rfl⟩ := h; exact ⟨hsome, hpair⟩)
  | switchMaybeToCcaBusy d band isPrimary thr =>
      cases hoff : s.m_isOff <;> simp [step, hoff] at h
      obtain ⟨rfl, rfl⟩ := h
      exact ccaUpsert_aligned s now d _ hsome hpair
  | switchToSleep pb pt =>
      cases hoff : s.m_isOff <;> simp [step, hoff] at h
      obtain ⟨rfl, rfl⟩ := h
      exact ⟨hsome, hpair⟩
  | switchFromSleep d band isPrimary thr =>
      by_cases hcond : (!s.m_isOff && s.m_sleeping) = true <;>
        simp only [step, hcond, if_true, if_false] at h
      · obtain ⟨rfl, rfl⟩ := Prod.mk.inj (Option.some.inj h)
        exact ccaUpsert_aligned
          { s with m_sleeping := false, m_previousStateChangeTime := now }
          now d _ hsome hpair
      · exact absurd h (by simp)
  | switchToOff pb pt =>
      simp [step] at h
      obtain ⟨rfl, rfl⟩ := h
      exact ⟨hsome, hpair⟩
  | switchFromOff d band isPrimary thr =>
      cases hoff : s.m_isOff <;> simp only [step, hoff, if_true, if_false,
        Bool.true_eq_false, Bool.false_eq_true] at h
      · exact absurd h (by simp)
      · obtain ⟨rfl, rfl⟩ := Prod.mk.inj (Option.some.inj h)
        exact ccaUpsert_aligned
          { s with m_isOff := false, m_previousStateChangeTime := now }
          now d _ hsome hpair

/-- Alignment survives any successful run from an aligned tracker. -/
theorem run_ccaAligned (ops : List TimedOp) :
    ∀ (s0 s : WifiPhyStateHelper), CcaMapsAligned s0 → run s0 ops = some s →
      CcaMapsAligned s := by
  induction ops with
  | nil =>
      intro s0 s hal hrun
      obtain rfl : s0 = s := Option.some.inj hrun
      exact hal
  | cons hd rest ih =>
      intro s0 s hal hrun
      obtain ⟨t1, op⟩ := hd
      simp only [run] at hrun
      cases hstep : step s0 t1 op with
      | none =>
          rw [hstep] at hrun
          exact absurd hrun (by simp)
      | some p =>
          obtain ⟨s1, ev1⟩ := p
          rw [hstep] at hrun
          simp only [Option.some_bind] at hrun
          exact ih s1 s (step_ccaAligned s0 t1 op s1 ev1 hal hstep) hrun

/-- C10: after every successful sequence of operations from the fresh
tracker, the start map and end map of the band occupancy table hold
exactly the same `(band, quantized threshold)` keys, and each shared key's
busy start is at most its busy end. -/
theorem ccaMaps_key_alignment (ops : List TimedOp) (s : WifiPhyStateHelper)
    (hrun : run initState ops = some s) : CcaMapsAligned s :=
  run_ccaAligned ops initState s
    ⟨fun _ => rfl, fun _ _ _ ha _ => Option.noConfusion ha⟩ hrun

/-- Witness operation list for `ccaMaps_key_alignment`, exercising the
plain upsert and the wake-up reseed. -/
def C10ops : List TimedOp :=
  [(0, PhyOp.switchMaybeToCcaBusy 5 (0, 0) true (-80)),
   (2, PhyOp.switchToSleep (0, 0) (-80)),
   (4, PhyOp.switchFromSleep 3 (0, 0) true (-80))]

/-- Witness for `ccaMaps_key_alignment` on the concrete run `C10ops`. -/
theorem ccaMaps_key_alignment_witness :
    CcaMapsAligned ((run initState C10ops).getD initState) :=
  ccaMaps_key_alignment C10ops ((run initState C10ops).getD initState) (by rfl)
